import Mathlib

/-!
Verification of the opaque-handle mechanism of `libportability-gfx`
(`src/libportability-gfx/src/handle.rs`).

The Rust code manages heap allocations through raw pointers.  We embed it
shallowly as explicit state passing over a `GfxState` that records

* `next`     — the allocator: the next fresh (never-null) address handed out
               by `Box::alloc` (the `copyless` allocation used by `alloc()`);
* `heap`     — the live `Handle<T>` allocations, address → payload;
* `registry` — the diagnostics REGISTRY (`cfg(feature = "nightly")`), a
               `HashMap<usize, &'static str>` modelled as an association
               list address → type-name label;
* `dheap`    — the live `DispatchHandle<T>` allocations, address →
               `(u64, T)` pair of magic tag and payload (dispatch module,
               `cfg(feature = "dispatch")`).

The `nightly` (diagnostics) build configuration is an explicit `Bool`
parameter of each operation that is gated on it in the source.  Operations
that can panic (the `.unwrap()` in `unbox`) or hit undefined behaviour
(dereferencing a dangling pointer) return `Option`, with `none` for the
panic/UB outcome.
-/

namespace Portability

/-! Association-list model of the registry `HashMap` and of the raw heap.
`insert` replaces any entry with the same key (HashMap semantics), `erase`
removes it, `lookup`/`contains` search by key. -/

namespace alist

def lookup {α : Type} (k : Nat) (l : List (Nat × α)) : Option α :=
  (l.find? (fun p => p.1 == k)).map Prod.snd

def insert {α : Type} (k : Nat) (v : α) (l : List (Nat × α)) : List (Nat × α) :=
  (k, v) :: l.filter (fun p => ! (p.1 == k))

def erase {α : Type} (k : Nat) (l : List (Nat × α)) : List (Nat × α) :=
  l.filter (fun p => ! (p.1 == k))

def contains {α : Type} (k : Nat) (l : List (Nat × α)) : Bool :=
  l.any (fun p => p.1 == k)

end alist

/-- Modelled from the spec: `VK_NULL_HANDLE` is defined in the crate root,
outside `handle.rs`; the spec says the null sentinel matches the host API's
null-handle convention, "typically the zero bit pattern", so it is address 0. -/
def VK_NULL_HANDLE : Nat := 0

/-- The explicit program state of the handle mechanism. -/
structure GfxState (T : Type) where
  next : Nat
  heap : List (Nat × T)
  registry : List (Nat × String)
  dheap : List (Nat × (Nat × T))
  deriving DecidableEq

/-- The state before any allocation: address 0 is reserved for the null
sentinel, so fresh addresses start at 1; all tables are empty. -/
def initialState (T : Type) : GfxState T := ⟨1, [], [], []⟩

/-- `Handle<T>(*mut T)`: a single address-sized value. -/
structure Handle (T : Type) where
  ptr : Nat
  deriving DecidableEq

/-- `HandleAllocation<T>`: raw, uninitialized storage for a `T`; its address
is already fixed by `alloc`. -/
structure HandleAllocation (T : Type) where
  addr : Nat
  deriving DecidableEq

/-- `Handle::alloc`: obtain fresh uninitialized storage (`Box::alloc`).
The returned address is the allocator's next fresh address, never null. -/
def Handle.alloc {T : Type} (s : GfxState T) : HandleAllocation T × GfxState T :=
  (⟨s.next⟩, { s with next := s.next + 1 })

/-- `HandleAllocation::init`: write `value` into the storage
(`Box::into_raw(self.0.init(value))`), then — nightly builds only —
register the address with `T`'s type name (`name`) in the REGISTRY. -/
def HandleAllocation.init {T : Type} (nightly : Bool) (a : HandleAllocation T)
    (name : String) (v : T) (s : GfxState T) : Handle T × GfxState T :=
  let s1 : GfxState T := { s with heap := alist.insert a.addr v s.heap }
  let s2 : GfxState T :=
    if nightly then { s1 with registry := alist.insert a.addr name s1.registry } else s1
  (⟨a.addr⟩, s2)

/-- `Handle::new`: `Self::alloc().init(value)`. -/
def Handle.new {T : Type} (nightly : Bool) (name : String) (v : T) (s : GfxState T) :
    Handle T × GfxState T :=
  let r := Handle.alloc s
  HandleAllocation.init nightly r.1 name v r.2

/-- `Handle::null`: the sentinel, `Handle(VK_NULL_HANDLE as *mut _)`. -/
def Handle.null (T : Type) : Handle T := ⟨VK_NULL_HANDLE⟩

/-- `Handle::unbox`: null yields `None`; otherwise nightly builds first
`REGISTRY.remove(&ptr).unwrap()` (panic — outer `none` — if the entry is
absent), then `Box::from_raw` reclaims the allocation and returns the owned
payload (UB — outer `none` — if the address is not a live allocation). -/
def Handle.unbox {T : Type} (nightly : Bool) (h : Handle T) (s : GfxState T) :
    Option (Option T × GfxState T) :=
  if h.ptr == VK_NULL_HANDLE then some (none, s)
  else if nightly && ! alist.contains h.ptr s.registry then none
  else
    match alist.lookup h.ptr s.heap with
    | some v => some (some v,
        { s with heap := alist.erase h.ptr s.heap,
                 registry := if nightly then alist.erase h.ptr s.registry else s.registry })
    | none => none

/-- `Handle::as_ref`: raw-pointer `as_ref`, `None` exactly when the pointer
is null (address 0); on a non-null dangling address the read is UB (outer
`none`), otherwise the borrowed payload. -/
def Handle.as_ref {T : Type} (h : Handle T) (s : GfxState T) : Option (Option T) :=
  if h.ptr == 0 then some none
  else (alist.lookup h.ptr s.heap).map some

/-- `Handle::as_mut`: same shape as `as_ref` (`ptr::as_mut`), read view. -/
def Handle.as_mut {T : Type} (h : Handle T) (s : GfxState T) : Option (Option T) :=
  if h.ptr == 0 then some none
  else (alist.lookup h.ptr s.heap).map some

/-- `Handle::check`: the asserted condition. Nightly builds assert the
address is in the REGISTRY; other builds `debug_assert!(!self.0.is_null())`
(modelled in its debug-active form). -/
def Handle.checkOk {T : Type} (nightly : Bool) (h : Handle T) (s : GfxState T) : Bool :=
  if nightly then alist.contains h.ptr s.registry else ! (h.ptr == 0)

/-- `ops::Deref for Handle`: `check()` then `&*self.0`; assertion failure or
UB on a dead address is the outer `none`. -/
def Handle.deref {T : Type} (nightly : Bool) (h : Handle T) (s : GfxState T) : Option T :=
  if Handle.checkOk nightly h s then alist.lookup h.ptr s.heap else none

/-- `borrow::Borrow<T> for Handle`: `check()` then `&*self.0`. -/
def Handle.borrow {T : Type} (nightly : Bool) (h : Handle T) (s : GfxState T) : Option T :=
  if Handle.checkOk nightly h s then alist.lookup h.ptr s.heap else none

/-- `ops::DerefMut for Handle`: `check()` then `&mut *self.0`; a write
through the returned mutable reference replaces the stored payload. -/
def Handle.derefMutWrite {T : Type} (nightly : Bool) (h : Handle T) (v' : T)
    (s : GfxState T) : Option (GfxState T) :=
  if Handle.checkOk nightly h s then
    (alist.lookup h.ptr s.heap).map (fun _ => { s with heap := alist.insert h.ptr v' s.heap })
  else none

/-- `Clone for Handle`: `*self`, bitwise copy of the address. -/
def Handle.clone {T : Type} (h : Handle T) : Handle T := h

/-- `PartialEq for Handle`: `self.0.eq(&other.0)`, address identity. -/
def Handle.eq {T : Type} (a b : Handle T) : Bool := a.ptr == b.ptr

/-- `Handle::report_leaks` (nightly builds): drains the REGISTRY, emitting
every remaining (address, type-name) entry; returns the drained entries and
the state with an emptied registry. -/
def Handle.report_leaks {T : Type} (s : GfxState T) : List (Nat × String) × GfxState T :=
  (s.registry, { s with registry := [] })

/-! The dispatch module (`cfg(feature = "dispatch")`): `DispatchHandle<T>`
owns a `(u64, T)` allocation whose first field is the loader magic tag. -/

/-- `const ICD_LOADER_MAGIC: u64 = 0x01CDC0DE`. -/
def ICD_LOADER_MAGIC : Nat := 0x01CDC0DE

/-- `DispatchHandle<T>(*mut (u64, T))`. -/
structure DispatchHandle (T : Type) where
  ptr : Nat
  deriving DecidableEq

/-- `DisplatchHandleAllocation<T>` (name as in the source). -/
structure DisplatchHandleAllocation (T : Type) where
  addr : Nat
  deriving DecidableEq

/-- `DispatchHandle::alloc`: fresh uninitialized `(u64, T)` storage. -/
def DispatchHandle.alloc {T : Type} (s : GfxState T) :
    DisplatchHandleAllocation T × GfxState T :=
  (⟨s.next⟩, { s with next := s.next + 1 })

/-- `DisplatchHandleAllocation::init`: writes `(ICD_LOADER_MAGIC, value)`
into the storage. Note: no REGISTRY interaction, unlike `Handle`'s init. -/
def DisplatchHandleAllocation.init {T : Type} (a : DisplatchHandleAllocation T)
    (v : T) (s : GfxState T) : DispatchHandle T × GfxState T :=
  (⟨a.addr⟩, { s with dheap := alist.insert a.addr (ICD_LOADER_MAGIC, v) s.dheap })

/-- `DispatchHandle::new`: `Self::alloc().init(value)`. -/
def DispatchHandle.new {T : Type} (v : T) (s : GfxState T) :
    DispatchHandle T × GfxState T :=
  let r := DispatchHandle.alloc s
  DisplatchHandleAllocation.init r.1 v r.2

/-- `DispatchHandle::null`. -/
def DispatchHandle.null (T : Type) : DispatchHandle T := ⟨VK_NULL_HANDLE⟩

/-- `DispatchHandle::unbox`: null yields `None`; otherwise `Box::from_raw`
reclaims the `(u64, T)` allocation and `.1` returns only the payload — the
magic tag is dropped. No REGISTRY interaction. -/
def DispatchHandle.unbox {T : Type} (h : DispatchHandle T) (s : GfxState T) :
    Option (Option T × GfxState T) :=
  if h.ptr == VK_NULL_HANDLE then some (none, s)
  else
    match alist.lookup h.ptr s.dheap with
    | some p => some (some p.2, { s with dheap := alist.erase h.ptr s.dheap })
    | none => none

/-- `DispatchHandle::as_ref`: explicit null test, then `&(*self.0).1` —
only the payload field is exposed. -/
def DispatchHandle.as_ref {T : Type} (h : DispatchHandle T) (s : GfxState T) :
    Option (Option T) :=
  if h.ptr == VK_NULL_HANDLE then some none
  else (alist.lookup h.ptr s.dheap).map (fun p => some p.2)

/-- `ops::Deref for DispatchHandle`: `&(*self.0).1`, with no `check()` and
no null test — the read is unconditional. -/
def DispatchHandle.deref {T : Type} (h : DispatchHandle T) (s : GfxState T) : Option T :=
  (alist.lookup h.ptr s.dheap).map Prod.snd

/-- `borrow::Borrow<T> for DispatchHandle`: `&(*self.0).1`, no `check()`. -/
def DispatchHandle.borrow {T : Type} (h : DispatchHandle T) (s : GfxState T) : Option T :=
  (alist.lookup h.ptr s.dheap).map Prod.snd

/-- `ops::DerefMut for DispatchHandle`: `&mut (*self.0).1`, no `check()`;
a write through the returned mutable reference replaces only the payload
field, the tag field `.0` stays as it was. -/
def DispatchHandle.derefMutWrite {T : Type} (h : DispatchHandle T) (v' : T)
    (s : GfxState T) : Option (GfxState T) :=
  (alist.lookup h.ptr s.dheap).map
    (fun p => { s with dheap := alist.insert h.ptr (p.1, v') s.dheap })

/-- `Clone for DispatchHandle`: `*self`. -/
def DispatchHandle.clone {T : Type} (h : DispatchHandle T) : DispatchHandle T := h

/-- `PartialEq for DispatchHandle`: `self.0.eq(&other.0)`. -/
def DispatchHandle.eq {T : Type} (a b : DispatchHandle T) : Bool := a.ptr == b.ptr

/-! Scenario combinators used by the testable properties of the spec. -/

/-- Allocate one handle per value in `vs`, left to right. -/
def newMany {T : Type} (nightly : Bool) (name : String) (vs : List T) (s : GfxState T) :
    List (Handle T) × GfxState T :=
  match vs with
  | [] => ([], s)
  | v :: rest =>
    let r := Handle.new nightly name v s
    let r2 := newMany nightly name rest r.2
    (r.1 :: r2.1, r2.2)

/-- Unbox the given handles in order; `none` if any unbox panics/faults. -/
def unboxMany {T : Type} (nightly : Bool) (hs : List (Handle T)) (s : GfxState T) :
    Option (GfxState T) :=
  match hs with
  | [] => some s
  | h :: rest =>
    match Handle.unbox nightly h s with
    | some pr => unboxMany nightly rest pr.2
    | none => none

/-- The ascending list `[n, n+1, ..., n+k-1]`. -/
def ascRange (n k : Nat) : List Nat :=
  match k with
  | 0 => []
  | Nat.succ k2 => n :: ascRange (n + 1) k2

/-- The diagnostics invariant actually maintained by the code: the registry
keys are exactly the addresses of the currently-live plain `Handle<T>`
allocations (the `heap`) — dispatchable allocations are not tracked. -/
def regMatchesHeap {T : Type} (s : GfxState T) : Prop :=
  ∀ a : Nat, alist.contains a s.registry = (alist.lookup a s.heap).isSome

/-- Every live dispatchable allocation carries the loader magic tag in its
first field. -/
def TagsOk {T : Type} (s : GfxState T) : Prop :=
  ∀ p ∈ s.dheap, p.2.1 = ICD_LOADER_MAGIC

namespace alist

theorem find?_filter_ne {α : Type} (a k : Nat) (h : a ≠ k) (l : List (Nat × α)) :
    (l.filter (fun p => ! (p.1 == k))).find? (fun p => p.1 == a)
      = l.find? (fun p => p.1 == a) := by
  have hk : (k == a) = false := by
    simp
    exact fun e => h e.symm
  induction l with
  | nil => rfl
  | cons q l ih =>
    by_cases hq : q.1 = k
    · simp [List.filter_cons, hq, ih, List.find?_cons, hk]
    · by_cases hqa : q.1 = a
      · simp [List.filter_cons, hq, List.find?_cons, hqa, h, hk]
      · simp [List.filter_cons, hq, List.find?_cons, hqa, h, hk, ih]

theorem any_filter_ne {α : Type} (a k : Nat) (h : a ≠ k) (l : List (Nat × α)) :
    (l.filter (fun p => ! (p.1 == k))).any (fun p => p.1 == a)
      = l.any (fun p => p.1 == a) := by
  have hk : (k == a) = false := by
    simp
    exact fun e => h e.symm
  induction l with
  | nil => rfl
  | cons q l ih =>
    by_cases hq : q.1 = k
    · simp [List.filter_cons, hq, ih, List.any_cons, hk]
    · simp [List.filter_cons, hq, List.any_cons, h, hk, ih]

theorem lookup_insert {α : Type} (a k : Nat) (v : α) (l : List (Nat × α)) :
    lookup a (insert k v l) = if a = k then some v else lookup a l := by
  by_cases h : a = k
  · subst h
    simp [lookup, insert, List.find?_cons]
  · have hk : (k == a) = false := by
      simp
      exact fun e => h e.symm
    simp [lookup, insert, List.find?_cons, hk, h, find?_filter_ne a k h]

theorem contains_insert {α : Type} (a k : Nat) (v : α) (l : List (Nat × α)) :
    contains a (insert k v l) = if a = k then true else contains a l := by
  by_cases h : a = k
  · subst h
    simp [contains, insert, List.any_cons]
  · have hk : (k == a) = false := by
      simp
      exact fun e => h e.symm
    simp [contains, insert, List.any_cons, hk, h, any_filter_ne a k h]

theorem lookup_erase {α : Type} (a k : Nat) (l : List (Nat × α)) :
    lookup a (erase k l) = if a = k then none else lookup a l := by
  by_cases h : a = k
  · subst h
    simp [lookup, erase]
  · simp [lookup, erase, h, find?_filter_ne a k h]

theorem contains_erase {α : Type} (a k : Nat) (l : List (Nat × α)) :
    contains a (erase k l) = if a = k then false else contains a l := by
  by_cases h : a = k
  · subst h
    simp [contains, erase]
  · simp [contains, erase, h, any_filter_ne a k h]

theorem lookup_map_const {α : Type} (x : Nat) (v : α) (l : List Nat) (hx : x ∈ l) :
    lookup x (l.map (fun a => (a, v))) = some v := by
  induction l with
  | nil => cases hx
  | cons a l ih =>
    by_cases h : a = x
    · simp [lookup, List.find?_cons, h]
    · rcases List.mem_cons.mp hx with h1 | h1
      · exact absurd h1.symm h
      · simpa [lookup, List.find?_cons, h] using ih h1

theorem contains_of_mem {α : Type} (x : Nat) (v : α) (l : List Nat) (hx : x ∈ l) :
    contains x (l.map (fun a => (a, v))) = true := by
  unfold contains
  rw [List.any_eq_true]
  refine ⟨(x, v), List.mem_map.mpr ⟨x, hx, rfl⟩, by simp⟩

theorem erase_map_const {α : Type} (k : Nat) (v : α) (l : List Nat) :
    erase k (l.map (fun a => (a, v)))
      = (l.filter (fun a => ! (a == k))).map (fun a => (a, v)) := by
  induction l with
  | nil => rfl
  | cons a l ih =>
    by_cases h : a = k
    · simp [erase, List.filter_cons, h] at ih ⊢
      exact ih
    · simp [erase, List.filter_cons, h] at ih ⊢
      exact ih

theorem filter_id_of_keys_lt {α : Type} (k : Nat) (l : List (Nat × α))
    (hl : ∀ p ∈ l, p.1 < k) :
    l.filter (fun p => ! (p.1 == k)) = l := by
  apply List.filter_eq_self.mpr
  intro p hp
  have := hl p hp
  simp
  omega

theorem insert_of_keys_lt {α : Type} (k : Nat) (v : α) (l : List (Nat × α))
    (hl : ∀ p ∈ l, p.1 < k) :
    insert k v l = (k, v) :: l := by
  simp [insert, filter_id_of_keys_lt k l hl]

theorem exists_mem_of_lookup_eq_some {α : Type} (k : Nat) (x : α) (l : List (Nat × α))
    (h : lookup k l = some x) : ∃ q ∈ l, q.2 = x := by
  unfold lookup at h
  cases hf : l.find? (fun p => p.1 == k) with
  | none =>
    rw [hf] at h
    cases h
  | some q =>
    rw [hf] at h
    simp at h
    exact ⟨q, List.mem_of_find?_eq_some hf, h⟩

end alist

/-- C1: for every payload value `v`, constructing a handle with
`Handle::new(v)` and then consuming it with `unbox()` returns `Some(v)`:
the payload stored at initialization is returned unchanged by consumption
(in both diagnostic and non-diagnostic builds, from any allocator state
whose next fresh address is non-null). -/
theorem C1_new_unbox_roundtrip {T : Type} (nightly : Bool) (name : String) (v : T)
    (s : GfxState T) (hnext : 0 < s.next) :
    (Handle.unbox nightly (Handle.new nightly name v s).1
        (Handle.new nightly name v s).2).map Prod.fst = some (some v) := by
  have h0 : (s.next == VK_NULL_HANDLE) = false := by
    simp [VK_NULL_HANDLE]
    omega
  cases nightly with
  | false =>
    simp [Handle.new, Handle.alloc, HandleAllocation.init, Handle.unbox, h0,
      alist.lookup_insert]
  | true =>
    simp [Handle.new, Handle.alloc, HandleAllocation.init, Handle.unbox, h0,
      alist.lookup_insert, alist.contains_insert]

/-- C1 witness: the round trip at a concrete input. -/
theorem C1_new_unbox_roundtrip_witness :
    (Handle.unbox true (Handle.new true "t" 7 (initialState Nat)).1
        (Handle.new true "t" 7 (initialState Nat)).2).map Prod.fst = some (some 7) :=
  C1_new_unbox_roundtrip true "t" 7 (initialState Nat) (by decide)

/-- C10: consuming the null sentinel yields the absent value, with the state
(heap and registry) completely unchanged, and borrowing it yields the absent
value: `Handle::null().unbox()` is `None` and `Handle::null().as_ref()` is
`None`, in every build configuration and from every state. -/
theorem C10_null_unbox_as_ref {T : Type} : ∀ (nightly : Bool) (s : GfxState T),
    Handle.unbox nightly (Handle.null T) s = some (none, s) ∧
    Handle.as_ref (Handle.null T) s = some none := by
  intro nightly s
  constructor
  · simp [Handle.unbox, Handle.null, VK_NULL_HANDLE]
  · simp [Handle.as_ref, Handle.null, VK_NULL_HANDLE]

/-- C9: handle equality (for both `Handle<T>` and `DispatchHandle<T>`) is an
equivalence relation based solely on address identity: reflexive, symmetric,
transitive, equal iff the stored addresses are equal; a copy of a handle
compares equal to it, while two distinct allocations — even of equal
payloads `v` and `w` with `v = w` — compare unequal. -/
theorem C9_equality_address_identity {T : Type} :
    (∀ a : Handle T, Handle.eq a a = true) ∧
    (∀ a b : Handle T, Handle.eq a b = true → Handle.eq b a = true) ∧
    (∀ a b c : Handle T, Handle.eq a b = true → Handle.eq b c = true →
        Handle.eq a c = true) ∧
    (∀ a b : Handle T, Handle.eq a b = true ↔ a.ptr = b.ptr) ∧
    (∀ a : Handle T, Handle.eq (Handle.clone a) a = true) ∧
    (∀ (nightly : Bool) (name : String) (v w : T) (s : GfxState T),
        Handle.eq (Handle.new nightly name v s).1
          (Handle.new nightly name w (Handle.new nightly name v s).2).1 = false) ∧
    (∀ a : DispatchHandle T, DispatchHandle.eq a a = true) ∧
    (∀ a b : DispatchHandle T, DispatchHandle.eq a b = true →
        DispatchHandle.eq b a = true) ∧
    (∀ a b c : DispatchHandle T, DispatchHandle.eq a b = true →
        DispatchHandle.eq b c = true → DispatchHandle.eq a c = true) ∧
    (∀ a b : DispatchHandle T, DispatchHandle.eq a b = true ↔ a.ptr = b.ptr) := by
  refine ⟨?_, ?_, ?_, ?_, ?_, ?_, ?_, ?_, ?_, ?_⟩
  · intro a
    simp [Handle.eq]
  · intro a b h
    simp [Handle.eq] at h ⊢
    omega
  · intro a b c h1 h2
    simp [Handle.eq] at h1 h2 ⊢
    omega
  · intro a b
    simp [Handle.eq]
  · intro a
    simp [Handle.eq, Handle.clone]
  · intro nightly name v w s
    cases nightly with
    | false =>
      simp [Handle.eq, Handle.new, Handle.alloc, HandleAllocation.init]
    | true =>
      simp [Handle.eq, Handle.new, Handle.alloc, HandleAllocation.init]
  · intro a
    simp [DispatchHandle.eq]
  · intro a b h
    simp [DispatchHandle.eq] at h ⊢
    omega
  · intro a b c h1 h2
    simp [DispatchHandle.eq] at h1 h2 ⊢
    omega
  · intro a b
    simp [DispatchHandle.eq]

/-- C9 witness: symmetry and transitivity applied at concrete handles. -/
theorem C9_equality_address_identity_witness :
    Handle.eq (⟨2⟩ : Handle Nat) ⟨2⟩ = true ∧
    DispatchHandle.eq (⟨3⟩ : DispatchHandle Nat) ⟨3⟩ = true :=
  ⟨(C9_equality_address_identity (T := Nat)).2.2.1 ⟨2⟩ ⟨2⟩ ⟨2⟩ rfl rfl,
   (C9_equality_address_identity (T := Nat)).2.2.2.2.2.2.2.2.1 ⟨3⟩ ⟨3⟩ ⟨3⟩ rfl rfl⟩

/-- C7: in diagnostic builds, consuming the same non-null, live, registered
handle twice fails fatally (assertion failure, the outer `none`) on the
second call, and the handle's registry entry is already absent immediately
after the first consumption. -/
theorem C7_double_unbox_fails {T : Type} (h : Handle T) (v : T) (s : GfxState T)
    (hnz : h.ptr ≠ 0) (hheap : alist.lookup h.ptr s.heap = some v)
    (hreg : alist.contains h.ptr s.registry = true) :
    ∃ s' : GfxState T,
      Handle.unbox true h s = some (some v, s') ∧
      alist.contains h.ptr s'.registry = false ∧
      Handle.unbox true h s' = none := by
  have h0 : (h.ptr == VK_NULL_HANDLE) = false := by
    simp [VK_NULL_HANDLE]
    exact hnz
  refine ⟨⟨s.next, alist.erase h.ptr s.heap, alist.erase h.ptr s.registry, s.dheap⟩,
    ?_, ?_, ?_⟩
  · simp [Handle.unbox, h0, hreg, hheap]
  · simp [alist.contains_erase]
  · simp [Handle.unbox, h0, alist.contains_erase]

/-- C7 witness: double consumption at a concrete state. -/
theorem C7_double_unbox_fails_witness :
    ∃ s' : GfxState Nat,
      Handle.unbox true ⟨1⟩ ⟨2, [(1, 5)], [(1, "t")], []⟩ = some (some 5, s') ∧
      alist.contains 1 s'.registry = false ∧
      Handle.unbox true ⟨1⟩ s' = none :=
  C7_double_unbox_fails ⟨1⟩ 5 ⟨2, [(1, 5)], [(1, "t")], []⟩ (by decide) rfl rfl

/-- C5: for every payload value `v`, `DispatchHandle::new(v).unbox()` returns
exactly `Some(v)`, and the magic tag is never observable through any public
accessor: `unbox`, `as_ref`, dereference and borrow all yield only the
payload `v`, never the tag. -/
theorem C5_dispatch_roundtrip {T : Type} (v : T) (s : GfxState T) (hnext : 0 < s.next) :
    (DispatchHandle.unbox (DispatchHandle.new v s).1
        (DispatchHandle.new v s).2).map Prod.fst = some (some v) ∧
    DispatchHandle.as_ref (DispatchHandle.new v s).1 (DispatchHandle.new v s).2
      = some (some v) ∧
    DispatchHandle.deref (DispatchHandle.new v s).1 (DispatchHandle.new v s).2
      = some v ∧
    DispatchHandle.borrow (DispatchHandle.new v s).1 (DispatchHandle.new v s).2
      = some v := by
  have h0 : (s.next == VK_NULL_HANDLE) = false := by
    simp [VK_NULL_HANDLE]
    omega
  refine ⟨?_, ?_, ?_, ?_⟩
  · simp [DispatchHandle.new, DispatchHandle.alloc, DisplatchHandleAllocation.init,
      DispatchHandle.unbox, h0, alist.lookup_insert]
  · simp [DispatchHandle.new, DispatchHandle.alloc, DisplatchHandleAllocation.init,
      DispatchHandle.as_ref, h0, alist.lookup_insert]
  · simp [DispatchHandle.new, DispatchHandle.alloc, DisplatchHandleAllocation.init,
      DispatchHandle.deref, alist.lookup_insert]
  · simp [DispatchHandle.new, DispatchHandle.alloc, DisplatchHandleAllocation.init,
      DispatchHandle.borrow, alist.lookup_insert]

/-- C5 witness: the dispatch round trip at a concrete input. -/
theorem C5_dispatch_roundtrip_witness :
    (DispatchHandle.unbox (DispatchHandle.new 9 (initialState Nat)).1
        (DispatchHandle.new 9 (initialState Nat)).2).map Prod.fst = some (some 9) ∧
    DispatchHandle.as_ref (DispatchHandle.new 9 (initialState Nat)).1
      (DispatchHandle.new 9 (initialState Nat)).2 = some (some 9) ∧
    DispatchHandle.deref (DispatchHandle.new 9 (initialState Nat)).1
      (DispatchHandle.new 9 (initialState Nat)).2 = some 9 ∧
    DispatchHandle.borrow (DispatchHandle.new 9 (initialState Nat)).1
      (DispatchHandle.new 9 (initialState Nat)).2 = some 9 :=
  C5_dispatch_roundtrip 9 (initialState Nat) (by decide)

/-- C2 counterexample: the claim fails for `DispatchHandle<T>`. If every
dereference on a dispatchable handle first invoked `check()` — which in
diagnostic builds asserts the address is present in the registry — then
dereferencing an address absent from the registry would fail; but the
dispatch `Deref` impl performs no check, so at the concrete state with one
live dispatch allocation at address 1 and an empty registry, dereference
succeeds and yields the payload. -/
theorem C2_counterexample_dispatch_unchecked :
    ¬ (∀ (s : GfxState Nat) (h : DispatchHandle Nat),
        alist.contains h.ptr s.registry = false → DispatchHandle.deref h s = none) := by
  intro hc
  have := hc ⟨2, [], [], [(1, (ICD_LOADER_MAGIC, 42))]⟩ ⟨1⟩ rfl
  simp [DispatchHandle.deref, alist.lookup, List.find?] at this

/-- C2 (amended): `Handle<T>`'s dereference, mutable dereference and
borrow-conversion each invoke `check()` before reinterpreting the address
(they fail whenever the checked condition is false, and read the payload
when it holds), but `DispatchHandle<T>`'s dereference, mutable dereference
and borrow-conversion (dispatch feature enabled) invoke no check at all:
they reinterpret the address unconditionally, regardless of the registry. -/
theorem C2_handle_deref_checked_dispatch_unchecked {T : Type} :
    (∀ (nightly : Bool) (h : Handle T) (s : GfxState T),
        Handle.checkOk nightly h s = false →
        Handle.deref nightly h s = none ∧ Handle.borrow nightly h s = none ∧
        (∀ v' : T, Handle.derefMutWrite nightly h v' s = none)) ∧
    (∀ (nightly : Bool) (h : Handle T) (s : GfxState T) (v : T),
        Handle.checkOk nightly h s = true → alist.lookup h.ptr s.heap = some v →
        Handle.deref nightly h s = some v ∧ Handle.borrow nightly h s = some v) ∧
    (∀ (h : DispatchHandle T) (s : GfxState T) (p : Nat × T),
        alist.lookup h.ptr s.dheap = some p →
        DispatchHandle.deref h s = some p.2 ∧ DispatchHandle.borrow h s = some p.2 ∧
        (DispatchHandle.derefMutWrite h p.2 s).isSome = true) := by
  refine ⟨?_, ?_, ?_⟩
  · intro nightly h s hc
    simp [Handle.deref, Handle.borrow, Handle.derefMutWrite, hc]
  · intro nightly h s v hc hl
    simp [Handle.deref, Handle.borrow, hc, hl]
  · intro h s p hl
    simp [DispatchHandle.deref, DispatchHandle.borrow, DispatchHandle.derefMutWrite, hl]

/-- C2 witness: a failed check blocks a plain dereference, while a dispatch
dereference with an empty registry still yields the payload. -/
theorem C2_handle_deref_checked_dispatch_unchecked_witness :
    Handle.deref true (⟨1⟩ : Handle Nat) (initialState Nat) = none ∧
    DispatchHandle.deref (⟨1⟩ : DispatchHandle Nat)
      ⟨2, [], [], [(1, (ICD_LOADER_MAGIC, 5))]⟩ = some 5 :=
  ⟨((C2_handle_deref_checked_dispatch_unchecked (T := Nat)).1 true ⟨1⟩
      (initialState Nat) rfl).1,
   ((C2_handle_deref_checked_dispatch_unchecked (T := Nat)).2.2 ⟨1⟩
      ⟨2, [], [], [(1, (ICD_LOADER_MAGIC, 5))]⟩ (ICD_LOADER_MAGIC, 5) rfl).1⟩

/-- C3 counterexample: the claim fails for dispatchable handles. If every
handle initialization inserted its address into the registry, then the
handle produced by `DispatchHandle::new` would have its address in the
registry; but the dispatch `init` has no registry hook, so from the initial
state the freshly allocated dispatch handle is live while the registry does
not contain its address. -/
theorem C3_counterexample_dispatch_untracked :
    ¬ (∀ (v : Nat) (s : GfxState Nat),
        alist.contains (DispatchHandle.new v s).1.ptr
          (DispatchHandle.new v s).2.registry = true) := by
  intro hc
  have := hc 7 (initialState Nat)
  simp [DispatchHandle.new, DispatchHandle.alloc, DisplatchHandleAllocation.init,
    initialState, alist.contains] at this

/-- C3 (amended): in diagnostic builds the registry's contents are at all
times exactly the set of addresses of currently-live plain `Handle<T>`
allocations: plain-handle initialization inserts its address, non-null
plain-handle consumption removes it, and the operations of the dispatchable
variant (dispatch feature enabled) never touch the registry or the plain
heap, so dispatch handles are not covered by the invariant. -/
theorem C3_registry_matches_live_plain_handles {T : Type} :
    regMatchesHeap (initialState T) ∧
    (∀ s : GfxState T, (Handle.alloc s).2.registry = s.registry ∧
        (Handle.alloc s).2.heap = s.heap) ∧
    (∀ (a : HandleAllocation T) (name : String) (v : T) (s : GfxState T),
        regMatchesHeap s →
        regMatchesHeap (HandleAllocation.init true a name v s).2) ∧
    (∀ (h : Handle T) (s : GfxState T) (o : Option T) (s' : GfxState T),
        regMatchesHeap s → Handle.unbox true h s = some (o, s') →
        regMatchesHeap s') ∧
    (∀ (v : T) (s : GfxState T),
        (DispatchHandle.new v s).2.registry = s.registry ∧
        (DispatchHandle.new v s).2.heap = s.heap) ∧
    (∀ (h : DispatchHandle T) (s : GfxState T) (o : Option T) (s' : GfxState T),
        DispatchHandle.unbox h s = some (o, s') →
        s'.registry = s.registry ∧ s'.heap = s.heap) := by
  refine ⟨?_, ?_, ?_, ?_, ?_, ?_⟩
  · intro a
    rfl
  · intro s
    exact ⟨rfl, rfl⟩
  · intro a name v s hs b
    simp only [HandleAllocation.init, if_true]
    rw [alist.contains_insert, alist.lookup_insert]
    by_cases hb : b = a.addr
    · simp [hb]
    · simp [hb, hs b]
  · intro h s o s' hs hu
    by_cases h0 : (h.ptr == VK_NULL_HANDLE) = true
    · simp [Handle.unbox, h0] at hu
      rw [← hu.2]
      exact hs
    · rw [Bool.not_eq_true] at h0
      cases hcont : alist.contains h.ptr s.registry with
      | false => simp [Handle.unbox, h0, hcont] at hu
      | true =>
        cases hlook : alist.lookup h.ptr s.heap with
        | none => simp [Handle.unbox, h0, hcont, hlook] at hu
        | some v =>
          simp [Handle.unbox, h0, hcont, hlook] at hu
          rw [← hu.2]
          intro b
          rw [alist.contains_erase, alist.lookup_erase]
          by_cases hb : b = h.ptr
          · simp [hb]
          · simp [hb, hs b]
  · intro v s
    exact ⟨rfl, rfl⟩
  · intro h s o s' hu
    by_cases h0 : (h.ptr == VK_NULL_HANDLE) = true
    · simp [DispatchHandle.unbox, h0] at hu
      rw [← hu.2]
      exact ⟨rfl, rfl⟩
    · rw [Bool.not_eq_true] at h0
      cases hlook : alist.lookup h.ptr s.dheap with
      | none => simp [DispatchHandle.unbox, h0, hlook] at hu
      | some p =>
        simp [DispatchHandle.unbox, h0, hlook] at hu
        rw [← hu.2]
        exact ⟨rfl, rfl⟩

/-- C3 witness: the preserved invariant after one plain-handle
initialization from the initial state. -/
theorem C3_registry_matches_live_plain_handles_witness :
    regMatchesHeap (HandleAllocation.init true (⟨1⟩ : HandleAllocation Nat) "t" 5
      (initialState Nat)).2 :=
  (C3_registry_matches_live_plain_handles (T := Nat)).2.2.1 ⟨1⟩ "t" 5
    (initialState Nat) (fun _ => rfl)

/-- C4 counterexample: the claim fails because the dispatchable variant does
implement `DerefMut`, a public operation yielding a mutable reference to the
payload. If no public operation yielded one, the payload observed by a
subsequent dereference could never change; at the concrete state with one
dispatch allocation holding payload 0, a write of 1 through the mutable
dereference changes the observed payload from 0 to 1. -/
theorem C4_counterexample_deref_mut_exists :
    ¬ (∀ (s s' : GfxState Nat) (h : DispatchHandle Nat) (v' : Nat),
        DispatchHandle.derefMutWrite h v' s = some s' →
        DispatchHandle.deref h s' = DispatchHandle.deref h s) := by
  intro hc
  have h1 : DispatchHandle.derefMutWrite (⟨1⟩ : DispatchHandle Nat) 1
      ⟨2, [], [], [(1, (ICD_LOADER_MAGIC, 0))]⟩
      = some ⟨2, [], [], [(1, (ICD_LOADER_MAGIC, 1))]⟩ := by
    simp [DispatchHandle.derefMutWrite, alist.lookup, alist.insert, List.find?,
      List.filter]
  have h2 := hc _ _ _ _ h1
  simp [DispatchHandle.deref, alist.lookup, List.find?] at h2

/-- C4 (amended): `DispatchHandle<T>` exposes no `as_mut` accessor method
(unlike `Handle<T>`), but it does implement the mutable dereference
(`DerefMut`), a public operation that yields a mutable reference to the
payload: writing `v'` through it on a live handle replaces the payload
(while leaving the tag slot as it was), and the new payload is observed by
a subsequent dereference. -/
theorem C4_dispatch_has_mutable_deref {T : Type} :
    ∀ (h : DispatchHandle T) (s : GfxState T) (p : Nat × T) (v' : T),
      alist.lookup h.ptr s.dheap = some p →
      DispatchHandle.derefMutWrite h v' s
        = some { s with dheap := alist.insert h.ptr (p.1, v') s.dheap } ∧
      DispatchHandle.deref h { s with dheap := alist.insert h.ptr (p.1, v') s.dheap }
        = some v' := by
  intro h s p v' hl
  constructor
  · simp [DispatchHandle.derefMutWrite, hl]
  · simp [DispatchHandle.deref, alist.lookup_insert]

/-- C4 witness: a concrete mutable-dereference write and its observation. -/
theorem C4_dispatch_has_mutable_deref_witness :
    DispatchHandle.derefMutWrite (⟨1⟩ : DispatchHandle Nat) 8
        ⟨2, [], [], [(1, (ICD_LOADER_MAGIC, 0))]⟩
      = some ⟨2, [], [],
          alist.insert 1 (ICD_LOADER_MAGIC, 8) [(1, (ICD_LOADER_MAGIC, 0))]⟩ ∧
    DispatchHandle.deref (⟨1⟩ : DispatchHandle Nat)
        ⟨2, [], [], alist.insert 1 (ICD_LOADER_MAGIC, 8) [(1, (ICD_LOADER_MAGIC, 0))]⟩
      = some 8 :=
  C4_dispatch_has_mutable_deref ⟨1⟩ ⟨2, [], [], [(1, (ICD_LOADER_MAGIC, 0))]⟩
    (ICD_LOADER_MAGIC, 0) 8 rfl

/-- C6: every dispatchable allocation begins with the fixed 64-bit magic
constant written as its first field at initialization, and the tag is
constant for the object's lifetime: it is written once at `init`, every
live dispatch allocation keeps the tag through mutable-dereference writes
and consumptions of other handles, and non-null consumption returns only
the payload — the tag is discarded, not returned. -/
theorem C6_magic_tag_lifecycle {T : Type} :
    (∀ (a : DisplatchHandleAllocation T) (v : T) (s : GfxState T),
        alist.lookup a.addr (DisplatchHandleAllocation.init a v s).2.dheap
          = some (ICD_LOADER_MAGIC, v)) ∧
    TagsOk (initialState T) ∧
    (∀ (a : DisplatchHandleAllocation T) (v : T) (s : GfxState T),
        TagsOk s → TagsOk (DisplatchHandleAllocation.init a v s).2) ∧
    (∀ (h : DispatchHandle T) (v' : T) (s s' : GfxState T),
        TagsOk s → DispatchHandle.derefMutWrite h v' s = some s' → TagsOk s') ∧
    (∀ (h : DispatchHandle T) (s : GfxState T) (o : Option T) (s' : GfxState T),
        TagsOk s → DispatchHandle.unbox h s = some (o, s') → TagsOk s') ∧
    (∀ (h : DispatchHandle T) (s : GfxState T) (p : Nat × T),
        h.ptr ≠ 0 → alist.lookup h.ptr s.dheap = some p →
        DispatchHandle.unbox h s
          = some (some p.2, { s with dheap := alist.erase h.ptr s.dheap })) := by
  refine ⟨?_, ?_, ?_, ?_, ?_, ?_⟩
  · intro a v s
    simp [DisplatchHandleAllocation.init, alist.lookup_insert]
  · intro p hp
    cases hp
  · intro a v s hts p hp
    simp only [DisplatchHandleAllocation.init, alist.insert] at hp
    rcases List.mem_cons.mp hp with h1 | h1
    · rw [h1]
    · exact hts p (List.mem_of_mem_filter h1)
  · intro h v' s s' hts hw
    cases hlook : alist.lookup h.ptr s.dheap with
    | none => simp [DispatchHandle.derefMutWrite, hlook] at hw
    | some p =>
      simp [DispatchHandle.derefMutWrite, hlook] at hw
      obtain ⟨q, hq, hq2⟩ := alist.exists_mem_of_lookup_eq_some _ _ _ hlook
      rw [← hw]
      intro r hr
      simp only [alist.insert] at hr
      rcases List.mem_cons.mp hr with h1 | h1
      · rw [h1]
        have : p.1 = ICD_LOADER_MAGIC := by
          rw [← hq2]
          exact hts q hq
        simpa using this
      · exact hts r (List.mem_of_mem_filter h1)
  · intro h s o s' hts hu
    by_cases h0 : (h.ptr == VK_NULL_HANDLE) = true
    · simp [DispatchHandle.unbox, h0] at hu
      rw [← hu.2]
      exact hts
    · rw [Bool.not_eq_true] at h0
      cases hlook : alist.lookup h.ptr s.dheap with
      | none => simp [DispatchHandle.unbox, h0, hlook] at hu
      | some p =>
        simp [DispatchHandle.unbox, h0, hlook] at hu
        rw [← hu.2]
        intro r hr
        exact hts r (List.mem_of_mem_filter hr)
  · intro h s p hnz hl
    have h0 : (h.ptr == VK_NULL_HANDLE) = false := by
      simp [VK_NULL_HANDLE]
      exact hnz
    simp [DispatchHandle.unbox, h0, hl]

/-- C6 witness: the tag after a concrete initialization, and a concrete
consumption returning only the payload. -/
theorem C6_magic_tag_lifecycle_witness :
    alist.lookup 1 (DisplatchHandleAllocation.init
        (⟨1⟩ : DisplatchHandleAllocation Nat) 5 (initialState Nat)).2.dheap
      = some (ICD_LOADER_MAGIC, 5) ∧
    DispatchHandle.unbox (⟨1⟩ : DispatchHandle Nat)
        ⟨2, [], [], [(1, (ICD_LOADER_MAGIC, 5))]⟩
      = some (some 5, ⟨2, [], [], alist.erase 1 [(1, (ICD_LOADER_MAGIC, 5))]⟩) :=
  ⟨(C6_magic_tag_lifecycle (T := Nat)).1 ⟨1⟩ 5 (initialState Nat),
   (C6_magic_tag_lifecycle (T := Nat)).2.2.2.2.2 ⟨1⟩
     ⟨2, [], [], [(1, (ICD_LOADER_MAGIC, 5))]⟩ (ICD_LOADER_MAGIC, 5)
     (by decide) rfl⟩

theorem ascRange_length (n k : Nat) : (ascRange n k).length = k := by
  induction k generalizing n with
  | zero => rfl
  | succ k ih => simp [ascRange, ih]

theorem mem_ascRange (x n k : Nat) : x ∈ ascRange n k ↔ n ≤ x ∧ x < n + k := by
  induction k generalizing n with
  | zero =>
    simp [ascRange]
  | succ k ih =>
    simp [ascRange, List.mem_cons, ih (n + 1)]
    omega

theorem ascRange_nodup (n k : Nat) : (ascRange n k).Nodup := by
  induction k generalizing n with
  | zero => exact List.nodup_nil
  | succ k ih =>
    simp only [ascRange]
    rw [List.nodup_cons]
    constructor
    · rw [mem_ascRange]
      omega
    · exact ih (n + 1)

theorem ascRange_take (n m r : Nat) : (ascRange n (m + r)).take m = ascRange n m := by
  induction m generalizing n with
  | zero => rfl
  | succ m ih =>
    have harith : m + 1 + r = (m + r) + 1 := by omega
    rw [harith]
    simp [ascRange, ih (n + 1)]

theorem length_filter_ne_of_nodup (k : Nat) : ∀ (l : List Nat), l.Nodup → k ∈ l →
    (l.filter (fun x => ! (x == k))).length = l.length - 1 := by
  intro l
  induction l with
  | nil =>
    intro _ h
    cases h
  | cons a l ih =>
    intro hnd hk
    by_cases hak : a = k
    · subst hak
      have hnotin : a ∉ l := (List.nodup_cons.mp hnd).1
      have hfix : l.filter (fun x => ! (x == a)) = l := by
        apply List.filter_eq_self.mpr
        intro x hx
        simp
        intro he
        rw [he] at hx
        exact absurd hx hnotin
      simp [List.filter_cons, hfix]
    · have hkl : k ∈ l := by
        rcases List.mem_cons.mp hk with h1 | h1
        · exact absurd h1.symm hak
        · exact h1
      have hrec := ih (List.nodup_cons.mp hnd).2 hkl
      have hlen : 0 < l.length := List.length_pos.mpr (List.ne_nil_of_mem hkl)
      simp [List.filter_cons, hak, hrec]
      omega

theorem newMany_replicate {T : Type} (name : String) (v : T) :
    ∀ (n : Nat) (s : GfxState T),
      (∀ p ∈ s.registry, p.1 < s.next) → (∀ p ∈ s.heap, p.1 < s.next) →
      (newMany true name (List.replicate n v) s).1
          = (ascRange s.next n).map (fun a => (⟨a⟩ : Handle T)) ∧
      (newMany true name (List.replicate n v) s).2
          = ⟨s.next + n,
             ((ascRange s.next n).reverse.map (fun a => (a, v))) ++ s.heap,
             ((ascRange s.next n).reverse.map (fun a => (a, name))) ++ s.registry,
             s.dheap⟩ := by
  intro n
  induction n with
  | zero =>
    intro s h1 h2
    exact ⟨rfl, rfl⟩
  | succ n ih =>
    intro s hreg hheap
    have hnewEq : Handle.new true name v s
        = (⟨s.next⟩, ⟨s.next + 1, (s.next, v) :: s.heap, (s.next, name) :: s.registry,
            s.dheap⟩) := by
      simp [Handle.new, Handle.alloc, HandleAllocation.init,
        alist.insert_of_keys_lt s.next v s.heap hheap,
        alist.insert_of_keys_lt s.next name s.registry hreg]
    have hr1 : ∀ p ∈ ((s.next, name) :: s.registry), p.1 < s.next + 1 := by
      intro p hp
      rcases List.mem_cons.mp hp with h1 | h1
      · simp [h1]
      · have := hreg p h1
        omega
    have hh1 : ∀ p ∈ ((s.next, v) :: s.heap), p.1 < s.next + 1 := by
      intro p hp
      rcases List.mem_cons.mp hp with h1 | h1
      · simp [h1]
      · have := hheap p h1
        omega
    have IH := ih ⟨s.next + 1, (s.next, v) :: s.heap, (s.next, name) :: s.registry,
      s.dheap⟩ hr1 hh1
    have hstep : newMany true name (List.replicate (n + 1) v) s
        = ((⟨s.next⟩ : Handle T) :: (newMany true name (List.replicate n v)
              ⟨s.next + 1, (s.next, v) :: s.heap, (s.next, name) :: s.registry,
               s.dheap⟩).1,
           (newMany true name (List.replicate n v)
              ⟨s.next + 1, (s.next, v) :: s.heap, (s.next, name) :: s.registry,
               s.dheap⟩).2) := by
      simp only [List.replicate_succ, newMany, hnewEq]
    obtain ⟨IH1, IH2⟩ := IH
    rw [hstep]
    constructor
    · rw [IH1]
      simp [ascRange]
    · rw [IH2]
      simp only [ascRange]
      simp [List.reverse_cons, List.map_append, List.append_assoc]
      omega

theorem unboxMany_tracked {T : Type} (v : T) (name : String) :
    ∀ (ks l : List Nat) (nx : Nat) (dh : List (Nat × (Nat × T))),
      l.Nodup → (∀ x ∈ l, 0 < x) → (∀ k ∈ ks, k ∈ l) → ks.Nodup →
      ∃ s' : GfxState T,
        unboxMany true (ks.map (fun x => (⟨x⟩ : Handle T)))
            ⟨nx, l.map (fun x => (x, v)), l.map (fun x => (x, name)), dh⟩ = some s' ∧
        s'.registry.length = l.length - ks.length := by
  intro ks
  induction ks with
  | nil =>
    intro l nx dh _ _ _ _
    refine ⟨_, rfl, ?_⟩
    simp
  | cons k ks ih =>
    intro l nx dh hnd hpos hsub hknd
    have hkl : k ∈ l := hsub k (List.mem_cons_self k ks)
    have hkpos : 0 < k := hpos k hkl
    have h0 : (k == VK_NULL_HANDLE) = false := by
      simp [VK_NULL_HANDLE]
      omega
    have hcont := alist.contains_of_mem k name l hkl
    have hlook := alist.lookup_map_const k v l hkl
    have hstep : Handle.unbox true (⟨k⟩ : Handle T)
        ⟨nx, l.map (fun x => (x, v)), l.map (fun x => (x, name)), dh⟩
        = some (some v,
            ⟨nx, (l.filter (fun x => ! (x == k))).map (fun x => (x, v)),
                 (l.filter (fun x => ! (x == k))).map (fun x => (x, name)), dh⟩) := by
      simp [Handle.unbox, h0, hcont, hlook, alist.erase_map_const]
    have hnd2 : (l.filter (fun x => ! (x == k))).Nodup := List.Nodup.filter _ hnd
    have hpos2 : ∀ x ∈ l.filter (fun x => ! (x == k)), 0 < x :=
      fun x hx => hpos x (List.mem_of_mem_filter hx)
    have hsub2 : ∀ j ∈ ks, j ∈ l.filter (fun x => ! (x == k)) := by
      intro j hj
      have hjl : j ∈ l := hsub j (List.mem_cons_of_mem k hj)
      have hjk : j ≠ k := by
        intro he
        rw [he] at hj
        exact (List.nodup_cons.mp hknd).1 hj
      apply List.mem_filter.mpr
      refine ⟨hjl, ?_⟩
      simp [hjk]
    have hknd2 : ks.Nodup := (List.nodup_cons.mp hknd).2
    obtain ⟨s', hu, hlen⟩ := ih (l.filter (fun x => ! (x == k))) nx dh hnd2 hpos2
      hsub2 hknd2
    refine ⟨s', ?_, ?_⟩
    · simp only [List.map_cons, unboxMany, hstep]
      exact hu
    · rw [hlen, length_filter_ne_of_nodup k l hnd hkl]
      simp only [List.length_cons]
      omega

/-- C8: in diagnostic builds, `report_leaks()` invoked after allocating N
handles and consuming the first M of them (M < N) reports exactly N−M
entries; because reporting drains the registry destructively, invoking it
again immediately afterward reports zero entries. -/
theorem C8_report_leaks_drains {T : Type} (name : String) (v : T) (N M : Nat)
    (hMN : M < N) :
    ∃ s' : GfxState T,
      unboxMany true
          (((newMany true name (List.replicate N v) (initialState T)).1).take M)
          (newMany true name (List.replicate N v) (initialState T)).2 = some s' ∧
      (Handle.report_leaks s').1.length = N - M ∧
      (Handle.report_leaks (Handle.report_leaks s').2).1.length = 0 := by
  obtain ⟨h1, h2⟩ := newMany_replicate name v N (initialState T)
    (by intro p hp; cases hp) (by intro p hp; cases hp)
  simp only [initialState] at h1 h2 ⊢
  rw [h1, h2]
  have hN : N = M + (N - M) := by omega
  have htake0 := ascRange_take 1 M (N - M)
  rw [← hN] at htake0
  have htake : ((ascRange 1 N).map (fun a => (⟨a⟩ : Handle T))).take M
      = (ascRange 1 M).map (fun a => (⟨a⟩ : Handle T)) := by
    rw [← List.map_take, htake0]
  rw [htake]
  have c1 : ((ascRange 1 N).reverse).Nodup :=
    List.nodup_reverse.mpr (ascRange_nodup 1 N)
  have c2 : ∀ x ∈ (ascRange 1 N).reverse, 0 < x := by
    intro x hx
    have := (mem_ascRange x 1 N).mp (List.mem_reverse.mp hx)
    omega
  have c3 : ∀ j ∈ ascRange 1 M, j ∈ (ascRange 1 N).reverse := by
    intro j hj
    have := (mem_ascRange j 1 M).mp hj
    apply List.mem_reverse.mpr
    apply (mem_ascRange j 1 N).mpr
    omega
  have c4 : (ascRange 1 M).Nodup := ascRange_nodup 1 M
  obtain ⟨s', hu, hlen⟩ := unboxMany_tracked v name (ascRange 1 M)
    ((ascRange 1 N).reverse) (1 + N) [] c1 c2 c3 c4
  refine ⟨s', ?_, ?_, ?_⟩
  · simpa using hu
  · simp only [Handle.report_leaks]
    rw [hlen]
    simp [ascRange_length]
  · simp [Handle.report_leaks]

/-- C8 witness: two allocations, one consumption, at concrete inputs. -/
theorem C8_report_leaks_drains_witness :
    ∃ s' : GfxState Nat,
      unboxMany true
          (((newMany true "t" (List.replicate 2 0) (initialState Nat)).1).take 1)
          (newMany true "t" (List.replicate 2 0) (initialState Nat)).2 = some s' ∧
      (Handle.report_leaks s').1.length = 2 - 1 ∧
      (Handle.report_leaks (Handle.report_leaks s').2).1.length = 0 :=
  C8_report_leaks_drains "t" 0 2 1 (by decide)

end Portability
